import Mathlib

/-!
Verification development for the smartcommit repository.

The development shallowly embeds the three source units relevant to the
frozen claims:

* `internal/config/config.go` — the persisted provider configuration
  (`Config`, `Load`, `Config.Save`);
* `internal/ai/ai.go` — provider-client construction (`NewClient`,
  `NewOllamaClient` and its base-URL normalization);
* `internal/tui/model.go` — the interview state machine (`Model`,
  `Model.Update`, `checkPrerequisitesCmd`) driven by a message loop.

Go strings are modelled as `List Char` where byte lengths and whitespace
trimming matter, and as Lean `String` where only equality matters.  Go
`len` on a string counts UTF-8 bytes, modelled by `goLen`.  The Go map
`map[string]string` is modelled as an insertion-ordered association list
with update-in-place semantics (`mapSet`); Go maps are unordered, so only
the key set and the values are meaningful.

The event loop follows the documented concurrency model of the program:
the state machine dispatches at most one asynchronous unit of work at a
time and reacts to its completion message before accepting further
state-changing input; window-resize and spinner-tick events are handled
at any time without altering session state.  `Reach` is the set of
configurations (model plus pending asynchronous command) reachable under
that discipline.
-/

namespace SmartCommit

/-! ### Go string helpers -/

/-- Whitespace as recognized by Go `unicode.IsSpace` (the code points of
the Unicode White_Space property). -/
def isGoSpace (c : Char) : Bool :=
  (c.toNat == 32) || (c.toNat == 9) || (c.toNat == 10) || (c.toNat == 11) ||
  (c.toNat == 12) || (c.toNat == 13) || (c.toNat == 0x85) || (c.toNat == 0xA0) ||
  (c.toNat == 0x1680) || (decide (0x2000 ≤ c.toNat) && decide (c.toNat ≤ 0x200A)) ||
  (c.toNat == 0x2028) || (c.toNat == 0x2029) || (c.toNat == 0x202F) ||
  (c.toNat == 0x205F) || (c.toNat == 0x3000)

/-- `strings.TrimSpace` on a character list: drop leading and trailing
whitespace. -/
def goTrimL (l : List Char) : List Char :=
  ((l.dropWhile isGoSpace).reverse.dropWhile isGoSpace).reverse

/-- `strings.TrimSpace` on a `String`. -/
def goTrim (s : String) : String :=
  String.mk (goTrimL s.data)

/-- The number of bytes of the UTF-8 encoding of a character. -/
def utf8Size (c : Char) : Nat :=
  if c.toNat < 0x80 then 1
  else if c.toNat < 0x800 then 2
  else if c.toNat < 0x10000 then 3
  else 4

/-- Go `len` on a string: the number of bytes of its UTF-8 encoding. -/
def goLen (l : List Char) : Nat :=
  (l.map utf8Size).sum

/-! ### Session configuration (`internal/config/config.go`)

The configuration record and its JSON round trip.  File I/O is an
external collaborator; the persisted file is modelled as an optional
JSON value (`json.MarshalIndent` and `json.Unmarshal` are inverse at the
level of JSON values on this flat struct). -/

def ProviderOpenAI : String := "openai"

def ProviderOllama : String := "ollama"

/-- `config.Config`: provider kind, API key, Ollama model, Ollama URL.
`ProviderType` is a string type in the source. -/
structure ConfigRec where
  provider : String
  openAIAPIKey : String
  ollamaModel : String
  ollamaURL : String
deriving DecidableEq, Repr

/-- JSON values, as far as the configuration file needs them. -/
inductive JValue where
  | jstr (s : String)
  | jnum (n : Int)
  | jbool (b : Bool)
  | jobj (fields : List (String × JValue))
  | jarr (elems : List JValue)
  | jnull

/-- `json.MarshalIndent` of a `Config`: an object with the four tagged
fields. -/
def marshalConfig (c : ConfigRec) : JValue :=
  .jobj [(("provider"), .jstr c.provider),
         (("openai_api_key"), .jstr c.openAIAPIKey),
         (("ollama_model"), .jstr c.ollamaModel),
         (("ollama_url"), .jstr c.ollamaURL)]

/-- Reading one string field during `json.Unmarshal`: an absent field
leaves the zero value `""`; a field of the wrong type is an error. -/
def getStringField (fs : List (String × JValue)) (k : String) : Except String String :=
  match fs.find? (fun f => f.1 = k) with
  | none => .ok ("")
  | some (_, .jstr s) => .ok s
  | some _ => .error (("json: cannot unmarshal field ") ++ k)

/-- `json.Unmarshal` into a `Config`. -/
def unmarshalConfig (j : JValue) : Except String ConfigRec :=
  match j with
  | .jobj fs => do
      let p ← getStringField fs ("provider")
      let key ← getStringField fs ("openai_api_key")
      let mdl ← getStringField fs ("ollama_model")
      let url ← getStringField fs ("ollama_url")
      .ok ⟨p, key, mdl, url⟩
  | _ => .error ("json: cannot unmarshal into Config")

/-- `Config.Save`: marshal the record and overwrite the config file. -/
def ConfigRec.Save (c : ConfigRec) (_store : Option JValue) : Option JValue :=
  some (marshalConfig c)

/-- `config.Load`: if the config file exists, unmarshal it; otherwise
fall back to the default record seeded from the `OPENAI_API_KEY`
environment variable. -/
def Load (store : Option JValue) (envKey : String) : Except String ConfigRec :=
  match store with
  | some j => unmarshalConfig j
  | none =>
      .ok { provider := ProviderOpenAI, openAIAPIKey := envKey,
            ollamaModel := ("llama3"), ollamaURL := ("http://localhost:11434") }

/-! ### Provider clients (`internal/ai/ai.go`) -/

/-- `NewOllamaClient`: append a trailing slash when the URL is non-empty
and does not end in one (Go indexes the last byte; `/` is ASCII, so the
last byte is `/` exactly when the last character is). -/
def ensureTrailingSlash (u : List Char) : List Char :=
  if u ≠ [] ∧ u.getLast? ≠ some ('/') then u ++ [('/')] else u

/-- `NewOllamaClient`: append `v1/` unless the URL already ends with it
(Go compares the last three bytes; `v`, `1`, `/` are ASCII). -/
def appendV1IfMissing (s : List Char) : List Char :=
  if s.length < 3 ∨ s.drop (s.length - 3) ≠ (['v', '1', '/']) then s ++ ['v', '1', '/'] else s

/-- The base URL stored by `NewOllamaClient`. -/
def NewOllamaBaseURL (u : List Char) : List Char :=
  appendV1IfMissing (ensureTrailingSlash u)

/-- An `ai.Provider` client, by the data that determines its requests. -/
inductive Client where
  | openai (apiKey : String)
  | ollama (baseURL : List Char) (modelName : String)
deriving DecidableEq, Repr

/-- `ai.NewClient`: select the client from the configuration; an unknown
provider kind falls back to OpenAI when a key is present and errors
otherwise. -/
def NewClient (cfg : ConfigRec) : Except String Client :=
  if cfg.provider = ProviderOpenAI then .ok (.openai cfg.openAIAPIKey)
  else if cfg.provider = ProviderOllama then
    .ok (.ollama (NewOllamaBaseURL cfg.ollamaURL.data) cfg.ollamaModel)
  else if cfg.openAIAPIKey ≠ ("") then .ok (.openai cfg.openAIAPIKey)
  else .error (("unknown provider: ") ++ cfg.provider)

/-! ### The interview state machine (`internal/tui/model.go`) -/

/-- `SessionState`. -/
inductive SessionState where
  | loading | analysis | historyAnalysis | questioning | review | commit
  | error | success | setup | noRepo | welcome | diffTooLarge
deriving DecidableEq, Repr

/-- `SetupStep`. -/
inductive SetupStep where
  | provider | openAIKey | confirmOpenAIKey | ollamaURL | ollamaModel
deriving DecidableEq, Repr

/-- The key presses the `Update` function distinguishes (`msg.String()`).
`text s` stands for any other input that types `s` into the focused text
area. -/
inductive Key where
  | ctrlC | q | enter | keyM | one | two | keyCLower | keyCUpper | keyY | keyN
  | text (s : String) | other
deriving DecidableEq, Repr

/-- The text a key press inserts when it reaches the text-area widget. -/
def keyText : Key → String
  | .enter => ("\n")
  | .q => ("q")
  | .keyM => ("m")
  | .one => ("1")
  | .two => ("2")
  | .keyCLower => ("c")
  | .keyCUpper => ("C")
  | .keyY => ("y")
  | .keyN => ("n")
  | .text s => s
  | _ => ("")

/-- The ambient environment consulted while handling one key press: the
`OPENAI_API_KEY` environment variable and the outcome of a
`Config.Save` call performed during the step (`none` = success,
`some e` = write failure `e`). -/
structure World where
  envKey : String
  saveResult : Option String
deriving DecidableEq, Repr

/-- The single outstanding asynchronous command (`tea.Cmd`) dispatched by
the state machine.  `emitErr` is the immediately-failing command returned
when `ai.NewClient` fails during prerequisite handling. -/
inductive Pending where
  | checkPrereq
  | analyzeHistory (diff history : List Char)
  | analyzeChanges (diff history : List Char)
  | generateCommit (diff history : List Char) (historyCtx : List String)
      (answers : List (String × String))
  | commitRun (msg : String)
  | emitErr (e : String)
deriving DecidableEq, Repr

/-- Completion messages of asynchronous commands (the `tea.Msg` types of
the source). -/
inductive AsyncResult where
  | err (e : String)
  | diffTooLarge
  | prereqOk (cfg : ConfigRec) (diff history : List Char)
  | setupRequired (cfg : ConfigRec)
  | noRepo
  | historyAnalyzed (keyContext : List String)
  | questionsGenerated (questions : List String)
  | commitMsgGenerated (msg : String)
  | commitDone
deriving DecidableEq, Repr

/-- The Go map `Answers map[string]string`, modelled as an association
list: updating an existing key rewrites its value in place, a new key is
appended. -/
def mapSet (a : List (String × String)) (k v : String) : List (String × String) :=
  if a.any (fun kv => kv.1 = k) then a.map (fun kv => if kv.1 = k then (k, v) else kv)
  else a ++ [(k, v)]

/-- `tui.Model`, restricted to the session fields (spinner and viewport
are rendering-only; the text area is kept as its string value). -/
structure Model where
  state : SessionState
  err : Option String
  config : Option ConfigRec
  aiClient : Option Client
  diff : List Char
  history : List Char
  historyCtx : List String
  questions : List String
  answers : List (String × String)
  currentQIdx : Nat
  commitMsg : String
  setupStep : SetupStep
  selectedProvider : String
  textArea : String
  width : Nat
  height : Nat
deriving DecidableEq, Repr

/-- `NewModel`: the initial model (zero values as in the source). -/
def NewModel : Model where
  state := .loading
  err := none
  config := none
  aiClient := none
  diff := []
  history := []
  historyCtx := []
  questions := []
  answers := []
  currentQIdx := 0
  commitMsg := ("")
  setupStep := .provider
  selectedProvider := ("")
  textArea := ("")
  width := 80
  height := 24

/-- The outcome of one `Update` call: continue with a model and the
outstanding asynchronous command, or terminate (`tea.Quit`). -/
inductive StepOut where
  | cont (m : Model) (p : Option Pending)
  | quit (m : Model)
deriving DecidableEq, Repr

/-- Whether a `StepOut` terminates the session. -/
def StepOut.isQuit : StepOut → Bool
  | .cont _ _ => false
  | .quit _ => true

/-- The model carried by a `StepOut`. -/
def StepOut.modelOf : StepOut → Model
  | .cont m _ => m
  | .quit m => m

/-- The events driving the loop: a key press (with its ambient
environment), a window resize, a spinner tick, or the completion of the
outstanding asynchronous command. -/
inductive Ev where
  | key (k : Key) (w : World)
  | resize (w h : Nat)
  | tick
  | done (r : AsyncResult)
deriving DecidableEq, Repr

/-- Continuation of the `prerequisitesCheckedMsg` handling after
`ai.NewClient` returns: store the client and go to `Welcome`, or emit
the construction error. -/
def applyClient (m1 : Model) (diff history : List Char) : Except String Client → StepOut
  | .error e => .cont m1 (some (.emitErr e))
  | .ok client =>
      .cont { m1 with aiClient := some client, diff := diff, history := history,
                      state := .welcome } none

/-- The top-of-`Update` handling of completion messages (each returns
before the state-specific key handling). -/
def handleMsg (m : Model) (r : AsyncResult) : StepOut :=
  match r with
  | .err e => .cont { m with err := some e, state := .error } none
  | .diffTooLarge => .cont { m with state := .diffTooLarge } none
  | .prereqOk cfg diff history =>
      applyClient { m with config := some cfg } diff history (NewClient cfg)
  | .setupRequired cfg => .cont { m with config := some cfg, state := .setup } none
  | .noRepo => .cont { m with state := .noRepo } none
  | .historyAnalyzed ctx =>
      .cont { m with historyCtx := ctx, state := .analysis }
        (some (.analyzeChanges m.diff m.history))
  | .questionsGenerated qs =>
      let m1 := { m with questions := qs }
      if qs.length = 0 then
        .cont m1 (some (.generateCommit m1.diff m1.history m1.historyCtx m1.answers))
      else .cont { m1 with state := .questioning } none
  | .commitMsgGenerated s =>
      .cont { m with commitMsg := s, state := .commit } (some (.commitRun s))
  | .commitDone => .quit { m with state := .success }

/-- Fall-through to `m.TextArea.Update(msg)` at the end of the `Setup`
and `Questioning` branches. -/
def taUpdate (m : Model) (p : Option Pending) (k : Key) : StepOut :=
  .cont { m with textArea := m.textArea ++ keyText k } p

/-- A setup branch that persists the mutated configuration: on a write
failure, store the failure and go to `Error`; on success, keep the given
text-area value and re-dispatch the prerequisite check. -/
def setupSave (m : Model) (p : Option Pending) (cfg1 : ConfigRec) (ta1 : String) :
    Option String → StepOut
  | some e => .cont { m with config := some cfg1, err := some e, state := .error } p
  | none => .cont { m with config := some cfg1, textArea := ta1 } (some .checkPrereq)

/-- The `StateSetup` key handling over the explicit setup step and
configuration pointer, including the in-place mutation of `m.Config` and
the `Config.Save` calls.  A `nil` configuration pointer is unreachable
in this state; the model leaves the step inert then. -/
def setupKeyAux (ss : SetupStep) (cfgOpt : Option ConfigRec) (k : Key) (m : Model)
    (p : Option Pending) (w : World) : StepOut :=
  match ss, k with
  | .provider, .one =>
      .cont { m with
              selectedProvider := ProviderOpenAI,
              setupStep := if w.envKey ≠ ("") then .confirmOpenAIKey else .openAIKey,
              textArea := ("") } p
  | .provider, .two =>
      .cont { m with
              selectedProvider := ProviderOllama,
              setupStep := .ollamaURL,
              textArea := ("http://localhost:11434") } p
  | .confirmOpenAIKey, .keyY | .confirmOpenAIKey, .enter =>
      (match cfgOpt with
       | some cfg =>
           setupSave m p { cfg with provider := ProviderOpenAI, openAIAPIKey := w.envKey }
             m.textArea w.saveResult
       | none => .cont m p)
  | .confirmOpenAIKey, .keyN => .cont { m with setupStep := .openAIKey, textArea := ("") } p
  | .openAIKey, .enter =>
      if goTrim m.textArea ≠ ("") then
        (match cfgOpt with
         | some cfg =>
             setupSave m p
               { cfg with provider := ProviderOpenAI, openAIAPIKey := goTrim m.textArea }
               ("") w.saveResult
         | none => .cont m p)
      else taUpdate m p .enter
  | .ollamaURL, .enter =>
      if goTrim m.textArea ≠ ("") then
        (match cfgOpt with
         | some cfg =>
             .cont { m with
                     config := some { cfg with ollamaURL := goTrim m.textArea },
                     setupStep := .ollamaModel,
                     textArea := ("llama3.1") } p
         | none => .cont m p)
      else taUpdate m p .enter
  | .ollamaModel, .enter =>
      if goTrim m.textArea ≠ ("") then
        (match cfgOpt with
         | some cfg =>
             setupSave m p
               { cfg with provider := ProviderOllama, ollamaModel := goTrim m.textArea }
               ("") w.saveResult
         | none => .cont m p)
      else taUpdate m p .enter
  | _, _ => taUpdate m p k

/-- The `StateSetup` key handling. -/
def setupKey (m : Model) (p : Option Pending) (k : Key) (w : World) : StepOut :=
  setupKeyAux m.setupStep m.config k m p w

/-- The `StateQuestioning` key handling: a submission with non-empty
trimmed text stores the answer under the current question, advances the
index, resets the input and, when all questions are answered, moves to
`Loading` and dispatches message generation. -/
def questioningKey (m : Model) (p : Option Pending) (k : Key) : StepOut :=
  match k with
  | .enter =>
      let answer := goTrim m.textArea
      if answer ≠ ("") then
        let answers1 := mapSet m.answers (m.questions.getD m.currentQIdx ("")) answer
        let m1 := { m with answers := answers1, currentQIdx := m.currentQIdx + 1,
                           textArea := ("") }
        if m.currentQIdx + 1 ≥ m.questions.length then
          .cont { m1 with state := .loading }
            (some (.generateCommit m1.diff m1.history m1.historyCtx m1.answers))
        else .cont m1 p
      else taUpdate m p k
  | _ => taUpdate m p k

/-- The state-specific key handling (the second `switch` of `Update`)
over the explicit state. -/
def stateKeyAux (st : SessionState) (k : Key) (m : Model) (p : Option Pending) (w : World) :
    StepOut :=
  match st, k with
  | .diffTooLarge, .keyM | .diffTooLarge, .enter =>
      .cont { m with commitMsg := (""), state := .commit } (some (.commitRun ("")))
  | .diffTooLarge, .q => .quit m
  | .diffTooLarge, _ => .cont m p
  | .welcome, .one | .welcome, .enter =>
      .cont { m with state := .historyAnalysis } (some (.analyzeHistory m.diff m.history))
  | .welcome, .two =>
      .cont { m with commitMsg := (""), state := .commit } (some (.commitRun ("")))
  | .welcome, .keyCLower | .welcome, .keyCUpper =>
      .cont { m with state := .setup, setupStep := .provider } p
  | .welcome, _ => .cont m p
  | .setup, _ => setupKeyAux m.setupStep m.config k m p w
  | .questioning, _ => questioningKey m p k
  | .noRepo, .q => .quit m
  | .noRepo, _ => .cont m p
  | _, _ => .cont m p

/-- The state-specific key handling (the second `switch` of `Update`). -/
def stateKey (m : Model) (p : Option Pending) (k : Key) (w : World) : StepOut :=
  stateKeyAux m.state k m p w

/-- The global `q` handling: honored unless the state is one of
`Questioning`, `Review`, `Setup`, `Welcome`, `DiffTooLarge`. -/
def qQuits : SessionState → Bool
  | .questioning | .review | .setup | .welcome | .diffTooLarge => false
  | _ => true

/-- One `Update` call on the model together with the outstanding
asynchronous command. -/
def update (c : Model × Option Pending) (e : Ev) : StepOut :=
  match e with
  | .resize w h => .cont { c.1 with width := w, height := h } c.2
  | .tick => .cont c.1 c.2
  | .done r => handleMsg c.1 r
  | .key k w =>
      match k with
      | .ctrlC => .quit c.1
      | .q => if qQuits c.1.state then .quit c.1 else stateKey c.1 c.2 .q w
      | _ => stateKey c.1 c.2 k w

/-- The completion messages the given asynchronous command can produce. -/
def allowedRes : Pending → AsyncResult → Bool
  | .checkPrereq, .err _ => true
  | .checkPrereq, .diffTooLarge => true
  | .checkPrereq, .prereqOk _ _ _ => true
  | .checkPrereq, .setupRequired _ => true
  | .checkPrereq, .noRepo => true
  | .analyzeHistory _ _, .err _ => true
  | .analyzeHistory _ _, .historyAnalyzed _ => true
  | .analyzeChanges _ _, .err _ => true
  | .analyzeChanges _ _, .questionsGenerated _ => true
  | .generateCommit _ _ _ _, .err _ => true
  | .generateCommit _ _ _ _, .commitMsgGenerated _ => true
  | .commitRun _, .err _ => true
  | .commitRun _, .commitDone => true
  | .emitErr e, .err e2 => e == e2
  | _, _ => false

/-- The event discipline of the documented loop: one asynchronous
command at a time, whose completion must arrive before further
state-changing (key) input; resizes and ticks pass at any time. -/
def allowedEv (c : Model × Option Pending) (e : Ev) : Bool :=
  match e with
  | .key _ _ => c.2.isNone
  | .resize _ _ => true
  | .tick => true
  | .done r =>
      match c.2 with
      | some pd => allowedRes pd r
      | none => false

/-- Reachable configurations: `Init` dispatches the prerequisite check,
and each allowed, non-terminating event steps the configuration. -/
inductive Reach : Model × Option Pending → Prop where
  | init : Reach (NewModel, some .checkPrereq)
  | next {c : Model × Option Pending} {e : Ev} {m : Model} {p : Option Pending} :
      Reach c → allowedEv c e = true → update c e = .cont m p → Reach (m, p)

/-- Configurations reachable from a given one under the same discipline. -/
inductive ReachFrom (c0 : Model × Option Pending) : Model × Option Pending → Prop where
  | refl : ReachFrom c0 c0
  | next {c : Model × Option Pending} {e : Ev} {m : Model} {p : Option Pending} :
      ReachFrom c0 c → allowedEv c e = true → update c e = .cont m p → ReachFrom c0 (m, p)

/-! ### The prerequisite check (`checkPrerequisitesCmd`) -/

/-- The ambient environment one run of `checkPrerequisitesCmd` consults:
the result of `config.Load`, the `OPENAI_API_KEY` environment variable,
the outcome of the `cfg.Save()` call on the key-adoption path, and the
git queries. -/
structure PrereqEnv where
  loadResult : Except String ConfigRec
  envKey : String
  saveResult : Option String
  isRepo : Bool
  stagedDiff : Except String (List Char)
  recentHistory : Nat → Except String (List Char)

/-- The `needsSetup` computation of `checkPrerequisitesCmd`, returning
the (possibly key-adopting) configuration and the flag.  On the adoption
path the source calls `cfg.Save()` and discards its result (the comment
in the source reads `Ignore error, not critical`), so the save outcome
does not appear here. -/
def needsSetupCalc (cfg : ConfigRec) (envKey : String) : ConfigRec × Bool :=
  if cfg.provider = ("") then (cfg, true)
  else if cfg.provider = ProviderOpenAI then
    (if cfg.openAIAPIKey = ("") then
      (if envKey ≠ ("") then ({ cfg with openAIAPIKey := envKey }, false) else (cfg, true))
     else (cfg, false))
  else if cfg.provider = ProviderOllama ∧ (cfg.ollamaURL = ("") ∨ cfg.ollamaModel = ("")) then
    (cfg, true)
  else (cfg, false)

/-- `checkPrerequisitesCmd`: load the configuration, decide whether setup
is needed, check for a repository, fetch the staged diff, reject an
empty (after trimming) diff, reject a diff of more than 40000 bytes,
then fetch the last 10 history entries. -/
def checkPrerequisites (env : PrereqEnv) : AsyncResult :=
  match env.loadResult with
  | .error e => .err e
  | .ok cfg0 =>
      let cn := needsSetupCalc cfg0 env.envKey
      if cn.2 then .setupRequired cn.1
      else if ¬ env.isRepo then .noRepo
      else
        match env.stagedDiff with
        | .error e => .err e
        | .ok diff =>
            if goTrimL diff = [] then .err ("no staged changes found")
            else if goLen diff > 40000 then .diffTooLarge
            else
              match env.recentHistory 10 with
              | .error e => .err e
              | .ok history => .prereqOk cn.1 diff history

/-! #### The specified prerequisite order (from the specification text)

These definitions follow the words of the specification, to be compared
with `checkPrerequisites`. -/

/-- Modelled from the spec: "provider configuration incomplete" — no
provider selected, or the remote provider without a credential in either
the record or the environment, or the local provider missing URL or
model. -/
def specIncomplete (cfg : ConfigRec) (envKey : String) : Prop :=
  cfg.provider = ("")
  ∨ (cfg.provider = ProviderOpenAI ∧ cfg.openAIAPIKey = ("") ∧ envKey = (""))
  ∨ (cfg.provider = ProviderOllama ∧ (cfg.ollamaURL = ("") ∨ cfg.ollamaModel = ("")))

instance (cfg : ConfigRec) (envKey : String) : Decidable (specIncomplete cfg envKey) := by
  unfold specIncomplete
  infer_instance

/-- Modelled from the spec: the environment credential is adopted into
the record whenever the remote provider is missing a configured
credential. -/
def specResolve (cfg : ConfigRec) (envKey : String) : ConfigRec :=
  if cfg.provider = ProviderOpenAI ∧ cfg.openAIAPIKey = ("") ∧ envKey ≠ ("") then
    { cfg with openAIAPIKey := envKey }
  else cfg

/-- Modelled from the spec: the prerequisite decision order of §4.1 —
incomplete configuration, then repository presence, then empty staged
text, then the 40000-character threshold, then capture. -/
def specPrereq (cfg : ConfigRec) (envKey : String) (isRepo : Bool) (diff hist : List Char) :
    AsyncResult :=
  if specIncomplete cfg envKey then .setupRequired (specResolve cfg envKey)
  else if ¬ isRepo then .noRepo
  else if goTrimL diff = [] then .err ("no staged changes found")
  else if goLen diff > 40000 then .diffTooLarge
  else .prereqOk (specResolve cfg envKey) diff hist

/-! ### Invariants of the reachable configurations -/

/-- No answer collected yet: question index 0 and empty answer map. -/
def AEmpty (m : Model) : Prop :=
  m.currentQIdx = 0 ∧ m.answers = []

/-- The inductive invariant: before and during question generation no
answer has been collected; pre-questioning states carry no answers; and
the `Error` state has no outstanding command. -/
def Inv (c : Model × Option Pending) : Prop :=
  (c.2 = some .checkPrereq → AEmpty c.1)
  ∧ (∀ d h, c.2 = some (.analyzeHistory d h) → AEmpty c.1)
  ∧ (∀ d h, c.2 = some (.analyzeChanges d h) → AEmpty c.1 ∧ c.1.state = .analysis)
  ∧ ((c.1.state = .setup ∨ c.1.state = .welcome ∨ c.1.state = .noRepo ∨
      c.1.state = .diffTooLarge ∨ c.1.state = .historyAnalysis ∨ c.1.state = .analysis) →
      AEmpty c.1)
  ∧ (c.1.state = .error → c.2 = none)

/-- Configurations from which `Questioning` is unreachable: message
generation pending in `Analysis`, the commit running, or the terminal
`Error` screen. -/
def NoQuestioningCfg (c : Model × Option Pending) : Prop :=
  (c.1.state = .analysis ∧ ∃ d h ctx ans, c.2 = some (.generateCommit d h ctx ans))
  ∨ (c.1.state = .commit ∧ ∃ s, c.2 = some (.commitRun s))
  ∨ (c.1.state = .error ∧ c.2 = none)

/-! ### Driving the `Questioning` state -/

/-- A default ambient environment for key presses that consult neither
the environment variable nor a save outcome. -/
def w0 : World where
  envKey := ("")
  saveResult := none

/-- The configuration after a non-terminating step (a terminating step
keeps the final model with no outstanding command). -/
def outCfg : StepOut → Model × Option Pending
  | .cont m p => (m, p)
  | .quit m => (m, none)

/-- Press one key. -/
def doKey (c : Model × Option Pending) (k : Key) : Model × Option Pending :=
  outCfg (update c (.key k w0))

/-- Submit one answer: type its text into the empty text area, then
press enter. -/
def submitAnswer (c : Model × Option Pending) (a : String) : Model × Option Pending :=
  doKey (doKey c (.text a)) .enter

/-- Submit a sequence of answers. -/
def runSubmits (c : Model × Option Pending) (answers : List String) : Model × Option Pending :=
  answers.foldl submitAnswer c

/-! ### Concrete configurations used by counterexamples and witnesses -/

/-- A complete Ollama configuration. -/
def cfgOll : ConfigRec where
  provider := ProviderOllama
  openAIAPIKey := ("")
  ollamaModel := ("llama3.1")
  ollamaURL := ("http://localhost:11434")

/-- An environment whose staged diff is 40001 spaces: longer than the
threshold but empty after trimming. -/
def envC1 : PrereqEnv where
  loadResult := .ok cfgOll
  envKey := ("")
  saveResult := none
  isRepo := true
  stagedDiff := .ok (List.replicate 40001 (' '))
  recentHistory := fun _ => .ok [('h')]

/-- An environment on the key-adoption path whose `Config.Save` fails. -/
def envC7 : PrereqEnv where
  loadResult := .ok ⟨ProviderOpenAI, (""), ("llama3"), ("http://localhost:11434")⟩
  envKey := ("sk-env")
  saveResult := some ("disk full")
  isRepo := true
  stagedDiff := .ok [('f')]
  recentHistory := fun _ => .ok [('h')]

/-- A well-formed small environment. -/
def envW : PrereqEnv where
  loadResult := .ok cfgOll
  envKey := ("")
  saveResult := none
  isRepo := true
  stagedDiff := .ok [('f')]
  recentHistory := fun _ => .ok [('h')]

/-- The session model showing the large-diff screen. -/
def mDTL : Model :=
  { NewModel with state := .diffTooLarge }

/-- The session model on the error screen. -/
def mError : Model :=
  { NewModel with err := some ("boom"), state := .error }

/-- A questioning model whose text area holds only whitespace. -/
def mQBlank : Model :=
  { NewModel with state := .questioning, questions := [("Q1")], textArea := ("  ") }

/-- A questioning model with a duplicated generated question. -/
def mQDup : Model :=
  { NewModel with state := .questioning, questions := [("A"), ("A")] }

/-- A questioning model with two distinct questions. -/
def mQW : Model :=
  { NewModel with state := .questioning, questions := [("Q1"), ("Q2")] }

/-- A setup model about to persist the Ollama model name. -/
def mSetupSave : Model :=
  { NewModel with state := .setup, setupStep := .ollamaModel, config := some cfgOll,
                  textArea := ("llama3.1") }

/-- A world in which the configuration write fails. -/
def wFail : World where
  envKey := ("")
  saveResult := some ("disk full")

/-- The client built from `cfgOll`. -/
def clientOll : Client :=
  .ollama (("http://localhost:11434/v1/").data) ("llama3.1")

/-- The model after the prerequisite check succeeds on `cfgOll`. -/
def mWelcome : Model :=
  { NewModel with config := some cfgOll, aiClient := some clientOll,
                  diff := [('d')], history := [('h')], state := .welcome }

/-- The model after choosing the interactive mode. -/
def mHist : Model :=
  { mWelcome with state := .historyAnalysis }

/-- The model after history analysis returns no context. -/
def mAnalysis : Model :=
  { mHist with historyCtx := [], state := .analysis }

/-! ## Theorems -/

/-! ### String-helper lemmas -/

theorem goTrimL_replicate_space (n : Nat) :
    goTrimL (List.replicate n (' ')) = [] := by
  have h : ∀ k, List.dropWhile isGoSpace (List.replicate k (' ')) = [] := by
    intro k
    induction k with
    | zero => rfl
    | succ k ih =>
        rw [List.replicate_succ, List.dropWhile_cons]
        simp only [show isGoSpace (' ') = true from by decide, if_true]
        exact ih
  simp [goTrimL, h]

theorem goLen_replicate_space (n : Nat) :
    goLen (List.replicate n (' ')) = n := by
  simp [goLen, List.map_replicate, utf8Size]

/-! ### Claims C8, C9, C10 -/

/-- **C8.** Saving a configuration record with provider `ollama`, URL
`http://localhost:11434` and model `llama3.1` and then loading it yields
the identical record (for any API-key field, any prior file contents and
any environment). -/
theorem c8_config_roundtrip (key : String) (store : Option JValue) (envKey : String) :
    Load (ConfigRec.Save ⟨ProviderOllama, key, ("llama3.1"), ("http://localhost:11434")⟩ store) envKey
      = .ok ⟨ProviderOllama, key, ("llama3.1"), ("http://localhost:11434")⟩ := by
  rfl

/-- **C9.** Constructing a client from a configuration whose provider
kind is neither `openai` nor `ollama` does not always fail: with a
non-empty OpenAI key it silently falls back to the OpenAI client, and it
returns the "unknown provider" error exactly when the key is empty. -/
theorem c9_unknown_provider (cfg : ConfigRec)
    (h1 : cfg.provider ≠ ProviderOpenAI) (h2 : cfg.provider ≠ ProviderOllama) :
    NewClient cfg =
      (if cfg.openAIAPIKey ≠ ("") then .ok (.openai cfg.openAIAPIKey)
       else .error (("unknown provider: ") ++ cfg.provider)) := by
  simp [NewClient, h1, h2]

/-- Witness for C9 at the concrete provider kind `gemini`, once with a
key present and once with the key absent. -/
theorem c9_unknown_provider_witness :
    NewClient ⟨("gemini"), ("sk-test"), ("llama3"), ("http://x")⟩ = .ok (.openai ("sk-test"))
    ∧ NewClient ⟨("gemini"), (""), ("llama3"), ("http://x")⟩ = .error ("unknown provider: gemini") := by
  constructor
  · rw [c9_unknown_provider ⟨("gemini"), ("sk-test"), ("llama3"), ("http://x")⟩
      (by decide) (by decide)]
    rfl
  · rw [c9_unknown_provider ⟨("gemini"), (""), ("llama3"), ("http://x")⟩
      (by decide) (by decide)]
    rfl

theorem appendV1IfMissing_endsWith (s : List Char) :
    List.IsSuffix (['v', '1', '/']) (appendV1IfMissing s) := by
  unfold appendV1IfMissing
  split
  · exact List.suffix_append s (['v', '1', '/'])
  · rename_i h
    push_neg at h
    obtain ⟨-, h2⟩ := h
    have := List.drop_suffix (s.length - 3) s
    rwa [h2] at this

theorem appendV1IfMissing_eq (s : List Char) :
    appendV1IfMissing s =
      (if List.IsSuffix (['v', '1', '/']) s then s else s ++ ['v', '1', '/']) := by
  unfold appendV1IfMissing
  by_cases hsuf : List.IsSuffix (['v', '1', '/']) s
  · obtain ⟨t, ht⟩ := id hsuf
    have hlen : s.length = t.length + 3 := by
      rw [← ht, List.length_append]; rfl
    have hdrop : s.drop (s.length - 3) = ['v', '1', '/'] := by
      rw [hlen, Nat.add_sub_cancel, ← ht, List.drop_left]
    have hc : ¬ (s.length < 3 ∨ s.drop (s.length - 3) ≠ (['v', '1', '/'])) := by
      push_neg
      exact ⟨by omega, hdrop⟩
    rw [if_neg hc, if_pos hsuf]
  · have hcond : s.length < 3 ∨ s.drop (s.length - 3) ≠ (['v', '1', '/']) := by
      by_contra hc
      push_neg at hc
      obtain ⟨h3, hdrop⟩ := hc
      exact hsuf (by rw [← hdrop]; exact List.drop_suffix (s.length - 3) s)
    rw [if_pos hcond, if_neg hsuf]

/-- **C10.** `NewOllamaClient` normalizes the base URL so that it always
ends with `v1/`: for a non-empty URL a trailing slash is appended when
missing, `v1/` is appended unless the URL already ends with it, and in
particular `http://localhost:11434` becomes `http://localhost:11434/v1/`. -/
theorem c10_ollama_url (u : List Char) :
    List.IsSuffix (['v', '1', '/']) (NewOllamaBaseURL u)
    ∧ (u ≠ [] → u.getLast? ≠ some ('/') →
        NewOllamaBaseURL u = appendV1IfMissing (u ++ [('/')]))
    ∧ (u.getLast? = some ('/') → NewOllamaBaseURL u = appendV1IfMissing u)
    ∧ (∀ s : List Char, appendV1IfMissing s =
        (if List.IsSuffix (['v', '1', '/']) s then s else s ++ ['v', '1', '/']))
    ∧ NewOllamaBaseURL (("http://localhost:11434").data) = ("http://localhost:11434/v1/").data := by
  refine ⟨appendV1IfMissing_endsWith _, ?_, ?_, appendV1IfMissing_eq, ?_⟩
  · intro h1 h2
    simp [NewOllamaBaseURL, ensureTrailingSlash, h1, h2]
  · intro h
    simp [NewOllamaBaseURL, ensureTrailingSlash, h]
  · decide

/-- Witness for C10 at the concrete URL from the claim. -/
theorem c10_ollama_url_witness :
    NewOllamaBaseURL (("http://localhost:11434").data) =
      appendV1IfMissing ((("http://localhost:11434").data) ++ [('/')]) :=
  (c10_ollama_url (("http://localhost:11434").data)).2.1 (by decide) (by decide)

/-! ### Claim C1: the prerequisite order -/

theorem needsSetup_true_iff (cfg : ConfigRec) (ek : String) :
    (needsSetupCalc cfg ek).2 = true ↔ specIncomplete cfg ek := by
  have hOO : ProviderOpenAI ≠ ProviderOllama := by decide
  have hO : ProviderOpenAI ≠ ("") := by decide
  have hL : ProviderOllama ≠ ("") := by decide
  unfold needsSetupCalc specIncomplete
  split_ifs with h1 h2 h3 h4 h5 <;> simp_all

theorem needsSetup_fst (cfg : ConfigRec) (ek : String) :
    (needsSetupCalc cfg ek).1 = specResolve cfg ek := by
  have hOO : ProviderOpenAI ≠ ProviderOllama := by decide
  have hO : ProviderOpenAI ≠ ("") := by decide
  have hL : ProviderOllama ≠ ("") := by decide
  unfold needsSetupCalc specResolve
  split_ifs with h1 h2 h3 h4 h5 <;> simp_all

theorem needsSetup_false (cfg : ConfigRec) (ek : String) (h : ¬ specIncomplete cfg ek) :
    (needsSetupCalc cfg ek).2 = false := by
  have := (needsSetup_true_iff cfg ek).not.mpr h
  simpa using this

/-- `checkPrerequisitesCmd` computes exactly the specified decision
order whenever its three external queries succeed. -/
theorem check_eq_spec (env : PrereqEnv) (cfg : ConfigRec) (diff hist : List Char)
    (hl : env.loadResult = .ok cfg) (hd : env.stagedDiff = .ok diff)
    (hh : env.recentHistory 10 = .ok hist) :
    checkPrerequisites env = specPrereq cfg env.envKey env.isRepo diff hist := by
  simp only [checkPrerequisites, specPrereq, hl, hd, hh]
  rw [needsSetup_fst]
  by_cases hinc : specIncomplete cfg env.envKey
  · rw [(needsSetup_true_iff cfg env.envKey).mpr hinc, if_pos hinc]
    simp
  · rw [needsSetup_false cfg env.envKey hinc, if_neg hinc]
    rfl

/-- **C1 (amended).** The Loading-state prerequisite check follows the
specified order — incomplete configuration, no repository, empty staged
text after trimming, 40000-byte threshold, capture of diff and the last
10 history entries — and a staged text of length at most 40000 never
yields `DiffTooLarge`.  When the captured result is delivered, the
session goes to `Welcome` for both known provider kinds.  (For a staged
text that is longer than 40000 characters but empty after trimming, the
check fails with the "no staged changes" error rather than yielding
`DiffTooLarge`; see the counterexample.) -/
theorem c1_prereq_order :
    (∀ (env : PrereqEnv) (cfg : ConfigRec) (diff hist : List Char),
      env.loadResult = .ok cfg → env.stagedDiff = .ok diff → env.recentHistory 10 = .ok hist →
      checkPrerequisites env = specPrereq cfg env.envKey env.isRepo diff hist)
    ∧ (∀ (env : PrereqEnv) (diff : List Char),
      env.stagedDiff = .ok diff → goLen diff ≤ 40000 →
      checkPrerequisites env ≠ .diffTooLarge)
    ∧ (∀ (m : Model) (p : Option Pending) (cfg : ConfigRec) (diff hist : List Char),
      cfg.provider = ProviderOpenAI →
      update (m, p) (.done (.prereqOk cfg diff hist)) =
        .cont ({ m with config := some cfg, aiClient := some (.openai cfg.openAIAPIKey),
                        diff := diff, history := hist, state := .welcome }) none)
    ∧ (∀ (m : Model) (p : Option Pending) (cfg : ConfigRec) (diff hist : List Char),
      cfg.provider = ProviderOllama →
      update (m, p) (.done (.prereqOk cfg diff hist)) =
        .cont ({ m with config := some cfg,
                        aiClient := some (.ollama (NewOllamaBaseURL cfg.ollamaURL.data) cfg.ollamaModel),
                        diff := diff, history := hist, state := .welcome }) none) := by
  refine ⟨?_, ?_, ?_, ?_⟩
  · exact check_eq_spec
  · intro env diff hd hle
    unfold checkPrerequisites
    cases hl : env.loadResult with
    | error e => simp
    | ok cfg =>
        simp only [hd]
        split
        · simp
        · split
          · simp
          · split
            · simp
            · split
              · rename_i hgt
                exact absurd hgt (by omega)
              · cases env.recentHistory 10 <;> simp
  · intro m p cfg diff hist h
    simp [update, handleMsg, applyClient, NewClient, h]
  · intro m p cfg diff hist h
    simp [update, handleMsg, applyClient, NewClient, h,
      show ProviderOllama ≠ ProviderOpenAI from by decide]

/-- Witness for C1 at a concrete well-formed environment and the
concrete Ollama configuration. -/
theorem c1_prereq_order_witness :
    checkPrerequisites envW = specPrereq cfgOll ("") true [('f')] [('h')]
    ∧ checkPrerequisites envW ≠ .diffTooLarge
    ∧ update (NewModel, none) (.done (.prereqOk cfgOll [('d')] [('h')])) =
        .cont ({ NewModel with
                 config := some cfgOll,
                 aiClient := some (.ollama (NewOllamaBaseURL cfgOll.ollamaURL.data) cfgOll.ollamaModel),
                 diff := [('d')],
                 history := [('h')],
                 state := .welcome }) none :=
  ⟨c1_prereq_order.1 envW cfgOll [('f')] [('h')] rfl rfl rfl,
   c1_prereq_order.2.1 envW [('f')] rfl (by decide),
   c1_prereq_order.2.2.2 NewModel none cfgOll [('d')] [('h')] rfl⟩

/-- **C1, counterexample.** A staged diff of 40001 spaces has length
greater than 40000, yet the check fails with the "no staged changes"
error (the empty-after-trimming test precedes the size test) and does
not yield `DiffTooLarge`. -/
theorem c1_counterexample :
    goLen (List.replicate 40001 (' ')) > 40000
    ∧ checkPrerequisites envC1 = .err ("no staged changes found")
    ∧ checkPrerequisites envC1 ≠ .diffTooLarge := by
  have hcheck : checkPrerequisites envC1 = .err ("no staged changes found") := by
    rw [check_eq_spec envC1 cfgOll (List.replicate 40001 (' ')) [('h')] rfl rfl rfl]
    unfold specPrereq
    rw [if_neg (by decide : ¬ specIncomplete cfgOll (envC1.envKey)),
      if_neg (by decide : ¬ ¬ envC1.isRepo = true),
      if_pos (goTrimL_replicate_space 40001)]
  refine ⟨?_, hcheck, ?_⟩
  · rw [goLen_replicate_space]
    omega
  · rw [hcheck]
    simp

/-! ### Claim C5: the quit keys -/

/-- **C5 (amended).** `ctrl+c` terminates the session in every state.
The `q` key terminates the session exactly when the state is none of
`Questioning`, `Review`, `Setup`, `Welcome`; in particular it does
terminate the session in `DiffTooLarge`, through the state-specific
handler. -/
theorem c5_quit_keys (m : Model) (p : Option Pending) (w : World) :
    (update (m, p) (.key .ctrlC w)).isQuit = true
    ∧ ((update (m, p) (.key .q w)).isQuit = true ↔
        (m.state ≠ .questioning ∧ m.state ≠ .review ∧ m.state ≠ .setup ∧ m.state ≠ .welcome)) := by
  constructor
  · rfl
  · cases hst : m.state <;>
      cases hss : m.setupStep <;>
        simp [update, qQuits, stateKey, stateKeyAux, questioningKey, setupKeyAux, taUpdate,
          StepOut.isQuit, hst, hss]

/-- **C5, counterexample.** In the `DiffTooLarge` state the `q` key
terminates the session, contrary to the claim that a quit signal is
treated as ordinary input there. -/
theorem c5_counterexample :
    mDTL.state = .diffTooLarge
    ∧ (update (mDTL, none) (.key .q w0)).isQuit = true :=
  ⟨rfl, rfl⟩

/-! ### Claim C3: blank answers do not advance -/

/-- **C3.** In `Questioning`, submitting a text that trims to the empty
string only feeds the key to the text area: question index, answer map
and state tag are unchanged. -/
theorem c3_blank_answer_frame (m : Model) (p : Option Pending) (w : World)
    (hstate : m.state = .questioning) (hblank : goTrim m.textArea = ("")) :
    update (m, p) (.key .enter w) =
      .cont ({ m with textArea := m.textArea ++ keyText .enter }) p
    ∧ ({ m with textArea := m.textArea ++ keyText .enter } : Model).currentQIdx = m.currentQIdx
    ∧ ({ m with textArea := m.textArea ++ keyText .enter } : Model).answers = m.answers
    ∧ ({ m with textArea := m.textArea ++ keyText .enter } : Model).state = m.state := by
  refine ⟨?_, rfl, rfl, rfl⟩
  simp [update, stateKey, stateKeyAux, hstate, questioningKey, hblank, taUpdate]

/-- Witness for C3 at a concrete questioning model whose text area holds
two spaces. -/
theorem c3_blank_answer_frame_witness :
    update (mQBlank, none) (.key .enter w0) =
      .cont ({ mQBlank with textArea := mQBlank.textArea ++ keyText .enter }) none :=
  (c3_blank_answer_frame mQBlank none w0 rfl (by decide)).1

/-! ### Claim C7: configuration write failures -/

/-- **C7 (amended).** Every configuration write performed in the Setup
flow surfaces a failure immediately: when `Config.Save` fails on any of
its three Setup call sites, the session transitions to `Error` with the
failure stored and does not terminate.  (The fourth write, performed by
the prerequisite check when adopting the environment key, discards the
failure; see the counterexample.) -/
theorem c7_save_failure (m : Model) (p : Option Pending) (k : Key) (w : World)
    (e : String) (cfg : ConfigRec)
    (hstate : m.state = .setup) (hcfg : m.config = some cfg) (hsave : w.saveResult = some e)
    (hsite : (m.setupStep = .confirmOpenAIKey ∧ (k = .keyY ∨ k = .enter))
      ∨ (m.setupStep = .openAIKey ∧ k = .enter ∧ goTrim m.textArea ≠ (""))
      ∨ (m.setupStep = .ollamaModel ∧ k = .enter ∧ goTrim m.textArea ≠ (""))) :
    (update (m, p) (.key k w)).modelOf.state = .error
    ∧ (update (m, p) (.key k w)).modelOf.err = some e
    ∧ (update (m, p) (.key k w)).isQuit = false := by
  rcases hsite with ⟨hss, hk | hk⟩ | ⟨hss, hk, hta⟩ | ⟨hss, hk, hta⟩ <;> subst hk <;>
    simp [update, stateKey, stateKeyAux, hstate, setupKeyAux, setupSave, hss, hcfg, hsave,
      StepOut.modelOf, StepOut.isQuit, *]

/-- Witness for C7: persisting the Ollama model name while the write
fails lands on the error screen with the failure stored. -/
theorem c7_save_failure_witness :
    (update (mSetupSave, none) (.key .enter wFail)).modelOf.state = .error
    ∧ (update (mSetupSave, none) (.key .enter wFail)).modelOf.err = some ("disk full")
    ∧ (update (mSetupSave, none) (.key .enter wFail)).isQuit = false :=
  c7_save_failure mSetupSave none .enter wFail ("disk full") cfgOll rfl rfl rfl
    (Or.inr (Or.inr ⟨rfl, rfl, by decide⟩))

/-- **C7, counterexample.** On the key-adoption path of the prerequisite
check the configuration write fails, yet the check succeeds: the failure
is silently discarded, no error is surfaced, and the session proceeds to
`Welcome`. -/
theorem c7_counterexample :
    envC7.saveResult = some ("disk full")
    ∧ checkPrerequisites envC7 =
        .prereqOk ⟨ProviderOpenAI, ("sk-env"), ("llama3"), ("http://localhost:11434")⟩
          [('f')] [('h')]
    ∧ (∀ e, checkPrerequisites envC7 ≠ .err e)
    ∧ (update (NewModel, some .checkPrereq)
        (.done (checkPrerequisites envC7))).modelOf.state = .welcome := by
  have hch : checkPrerequisites envC7 =
      .prereqOk ⟨ProviderOpenAI, ("sk-env"), ("llama3"), ("http://localhost:11434")⟩
        [('f')] [('h')] := by rfl
  refine ⟨rfl, hch, ?_, ?_⟩
  · intro e
    rw [hch]
    simp
  · rw [hch]
    rfl

/-! ### The inductive invariant of the event loop -/

theorem inv_none_intro (m2 : Model)
    (hO : (m2.state = .setup ∨ m2.state = .welcome ∨ m2.state = .noRepo ∨
      m2.state = .diffTooLarge ∨ m2.state = .historyAnalysis ∨ m2.state = .analysis) →
      AEmpty m2) : Inv (m2, none) := by
  refine ⟨?_, ?_, ?_, hO, fun _ => rfl⟩ <;> intros <;> simp_all

theorem inv_checkPrereq_intro (m2 : Model) (hA : AEmpty m2) (hne : m2.state ≠ .error) :
    Inv (m2, some .checkPrereq) :=
  ⟨fun _ => hA, fun _ _ _ => hA,
   fun d h hx => absurd (Option.some.inj hx) (by simp),
   fun _ => hA, fun hx => absurd hx hne⟩

theorem inv_analyzeHistory_intro (m2 : Model) (d h : List Char) (hA : AEmpty m2)
    (hne : m2.state ≠ .error) : Inv (m2, some (.analyzeHistory d h)) :=
  ⟨fun _ => hA, fun _ _ _ => hA,
   fun d' h' hx => absurd (Option.some.inj hx) (by simp),
   fun _ => hA, fun hx => absurd hx hne⟩

theorem inv_analyzeChanges_intro (m2 : Model) (d h : List Char) (hA : AEmpty m2)
    (hstA : m2.state = .analysis) : Inv (m2, some (.analyzeChanges d h)) :=
  ⟨fun _ => hA, fun _ _ _ => hA, fun _ _ _ => ⟨hA, hstA⟩, fun _ => hA,
   fun hx => absurd hx (by simp [hstA])⟩

theorem inv_other_intro (m2 : Model) (x : Pending)
    (h1 : x ≠ .checkPrereq)
    (h2 : ∀ d h, x ≠ .analyzeHistory d h)
    (h3 : ∀ d h, x ≠ .analyzeChanges d h)
    (hO : (m2.state = .setup ∨ m2.state = .welcome ∨ m2.state = .noRepo ∨
      m2.state = .diffTooLarge ∨ m2.state = .historyAnalysis ∨ m2.state = .analysis) →
      AEmpty m2)
    (hne : m2.state ≠ .error) : Inv (m2, some x) :=
  ⟨fun hx => absurd (Option.some.inj hx) h1,
   fun d h hx => absurd (Option.some.inj hx) (h2 d h),
   fun d h hx => absurd (Option.some.inj hx) (h3 d h),
   hO, fun hx => absurd hx hne⟩

theorem inv_handleMsg {m : Model} {pd : Pending} {r : AsyncResult} {m2 : Model}
    {p2 : Option Pending} (hInv : Inv (m, some pd)) (hall : allowedRes pd r = true)
    (hs : handleMsg m r = .cont m2 p2) : Inv (m2, p2) := by
  obtain ⟨i1, i2, i3, i4, i5⟩ := hInv
  have hne : m.state ≠ .error := fun h => by simpa using i5 h
  cases r with
  | err e =>
      simp only [handleMsg] at hs
      injection hs with h1 h2
      subst h1; subst h2
      exact inv_none_intro _ (by rintro (h | h | h | h | h | h) <;> simp_all)
  | diffTooLarge =>
      cases pd <;> simp [allowedRes] at hall
      have hA := i1 rfl
      simp only [handleMsg] at hs
      injection hs with h1 h2
      subst h1; subst h2
      exact inv_none_intro _ (fun _ => hA)
  | prereqOk cfg d h =>
      cases pd <;> simp [allowedRes] at hall
      have hA := i1 rfl
      simp only [handleMsg] at hs
      cases hcl : NewClient cfg with
      | error e =>
          rw [hcl] at hs
          simp only [applyClient] at hs
          injection hs with h1 h2
          subst h1; subst h2
          exact inv_other_intro _ _ (by simp) (by simp) (by simp) (fun hd => i4 hd) hne
      | ok client =>
          rw [hcl] at hs
          simp only [applyClient] at hs
          injection hs with h1 h2
          subst h1; subst h2
          exact inv_none_intro _ (fun _ => hA)
  | setupRequired cfg =>
      cases pd <;> simp [allowedRes] at hall
      have hA := i1 rfl
      simp only [handleMsg] at hs
      injection hs with h1 h2
      subst h1; subst h2
      exact inv_none_intro _ (fun _ => hA)
  | noRepo =>
      cases pd <;> simp [allowedRes] at hall
      have hA := i1 rfl
      simp only [handleMsg] at hs
      injection hs with h1 h2
      subst h1; subst h2
      exact inv_none_intro _ (fun _ => hA)
  | historyAnalyzed ctx =>
      cases pd <;> simp [allowedRes] at hall
      rename_i d0 h0
      have hA := i2 d0 h0 rfl
      simp only [handleMsg] at hs
      injection hs with h1 h2
      subst h1; subst h2
      exact inv_analyzeChanges_intro _ _ _ hA rfl
  | questionsGenerated qs =>
      cases pd <;> simp [allowedRes] at hall
      rename_i d0 h0
      obtain ⟨hA, hstA⟩ := i3 d0 h0 rfl
      simp only [handleMsg] at hs
      split at hs
      · injection hs with h1 h2
        subst h1; subst h2
        exact inv_other_intro _ _ (by simp) (by simp) (by simp) (fun hd => i4 hd) hne
      · injection hs with h1 h2
        subst h1; subst h2
        exact inv_none_intro _ (by rintro (h | h | h | h | h | h) <;> simp_all)
  | commitMsgGenerated s =>
      cases pd <;> simp [allowedRes] at hall
      simp only [handleMsg] at hs
      injection hs with h1 h2
      subst h1; subst h2
      exact inv_other_intro _ _ (by simp) (by simp) (by simp)
        (by rintro (h | h | h | h | h | h) <;> simp_all) (by simp)
  | commitDone =>
      cases pd <;> simp [allowedRes] at hall
      simp only [handleMsg] at hs
      exact StepOut.noConfusion hs

theorem setupKeyAux_inv (ss : SetupStep) (cfgOpt : Option ConfigRec) (k : Key) (m : Model)
    (w : World) {m2 : Model} {p2 : Option Pending}
    (hA : AEmpty m) (hst : m.state = .setup)
    (hs : setupKeyAux ss cfgOpt k m none w = .cont m2 p2) : Inv (m2, p2) := by
  rcases hsv : w.saveResult with _ | e <;>
    rcases cfgOpt with _ | cfg <;>
      by_cases hta : goTrim m.textArea = ("") <;>
        cases ss <;> cases k <;>
          simp only [setupKeyAux, setupSave, taUpdate, hsv, hta, ne_eq, not_true_eq_false,
            not_false_eq_true, if_true, if_false, ite_true, ite_false] at hs <;>
          (injection hs with h1 h2; subst h1; subst h2) <;>
          first
            | exact inv_checkPrereq_intro _ hA (by simp [hst])
            | exact inv_none_intro _ (fun _ => hA)

theorem questioningKey_inv (k : Key) (m : Model) {m2 : Model} {p2 : Option Pending}
    (hst : m.state = .questioning)
    (hs : questioningKey m none k = .cont m2 p2) : Inv (m2, p2) := by
  cases k <;> simp only [questioningKey, taUpdate] at hs
  all_goals try
    (injection hs with h1 h2; subst h1; subst h2;
     exact inv_none_intro _ (by rintro (h | h | h | h | h | h) <;> simp_all))
  split at hs
  · split at hs
    · injection hs with h1 h2
      subst h1; subst h2
      exact inv_other_intro _ _ (by simp) (by simp) (by simp)
        (by rintro (h | h | h | h | h | h) <;> simp_all) (by simp)
    · injection hs with h1 h2
      subst h1; subst h2
      exact inv_none_intro _ (by rintro (h | h | h | h | h | h) <;> simp_all)
  · injection hs with h1 h2
    subst h1; subst h2
    exact inv_none_intro _ (by rintro (h | h | h | h | h | h) <;> simp_all)

theorem inv_stateKey {m : Model} {k : Key} {w : World} {m2 : Model} {p2 : Option Pending}
    (hInv : Inv (m, none)) (hs : stateKey m none k w = .cont m2 p2) : Inv (m2, p2) := by
  have i4 := hInv.2.2.2.1
  simp only [stateKey] at hs
  cases hst : m.state <;> rw [hst] at hs
  case diffTooLarge =>
    have hA : AEmpty m := i4 (by simp [hst])
    cases k <;> simp only [stateKeyAux] at hs <;>
      first
        | exact StepOut.noConfusion hs
        | (injection hs with h1 h2; subst h1; subst h2;
           first
             | exact hInv
             | exact inv_other_intro _ _ (by simp) (by simp) (by simp)
                 (by rintro (h | h | h | h | h | h) <;> simp_all) (by simp))
  case welcome =>
    have hA : AEmpty m := i4 (by simp [hst])
    cases k <;> simp only [stateKeyAux] at hs <;>
      (injection hs with h1 h2; subst h1; subst h2) <;>
      first
        | exact hInv
        | exact inv_analyzeHistory_intro _ _ _ hA (by simp)
        | exact inv_other_intro _ _ (by simp) (by simp) (by simp)
            (by rintro (h | h | h | h | h | h) <;> simp_all) (by simp)
        | exact inv_none_intro _ (fun _ => hA)
  case setup =>
    exact setupKeyAux_inv _ _ _ _ _ (i4 (by simp [hst])) hst hs
  case questioning =>
    exact questioningKey_inv _ _ hst hs
  all_goals
    cases k <;> simp only [stateKeyAux] at hs <;>
      first
        | exact StepOut.noConfusion hs
        | (injection hs with h1 h2; subst h1; subst h2; exact hInv)

theorem inv_preserved {c : Model × Option Pending} {e : Ev} {m2 : Model} {p2 : Option Pending}
    (hInv : Inv c) (ha : allowedEv c e = true) (hs : update c e = .cont m2 p2) :
    Inv (m2, p2) := by
  obtain ⟨m0, p0⟩ := c
  cases e with
  | resize w h =>
      simp only [update] at hs
      injection hs with h1 h2
      subst h1; subst h2
      exact hInv
  | tick =>
      simp only [update] at hs
      injection hs with h1 h2
      subst h1; subst h2
      exact hInv
  | done r =>
      simp only [update] at hs
      rcases p0 with _ | pd
      · simp [allowedEv] at ha
      · exact inv_handleMsg hInv (by simpa [allowedEv] using ha) hs
  | key k w =>
      have hp : p0 = none := by
        simpa [allowedEv, Option.isNone_iff_eq_none] using ha
      subst hp
      cases k
      case ctrlC =>
        simp only [update] at hs
        exact StepOut.noConfusion hs
      case q =>
        simp only [update] at hs
        by_cases hq : qQuits m0.state = true
        · rw [if_pos hq] at hs
          exact StepOut.noConfusion hs
        · rw [if_neg hq] at hs
          exact inv_stateKey hInv hs
      all_goals
        simp only [update] at hs
        exact inv_stateKey hInv hs

theorem reach_inv {c : Model × Option Pending} (h : Reach c) : Inv c := by
  induction h with
  | init => exact inv_checkPrereq_intro _ ⟨rfl, rfl⟩ (by simp [NewModel])
  | next hre hall hstep ih => exact inv_preserved ih hall hstep

/-! ### `Questioning` is unreachable after an empty question list -/

theorem noq_preserved {c : Model × Option Pending} {e : Ev} {m2 : Model} {p2 : Option Pending}
    (hN : NoQuestioningCfg c) (ha : allowedEv c e = true) (hs : update c e = .cont m2 p2) :
    NoQuestioningCfg (m2, p2) := by
  obtain ⟨m0, p0⟩ := c
  cases e with
  | resize w h =>
      simp only [update] at hs
      injection hs with h1 h2
      subst h1; subst h2
      exact hN
  | tick =>
      simp only [update] at hs
      injection hs with h1 h2
      subst h1; subst h2
      exact hN
  | key k w =>
      have hp : p0 = none := by
        simpa [allowedEv, Option.isNone_iff_eq_none] using ha
      subst hp
      rcases hN with ⟨hst, d, h, ctx, ans, hpend⟩ | ⟨hst, s, hpend⟩ | ⟨hst, -⟩
      · exact Option.noConfusion hpend
      · exact Option.noConfusion hpend
      · cases k
        case ctrlC =>
          simp only [update] at hs
          exact StepOut.noConfusion hs
        case q =>
          have hq : qQuits m0.state = true := by rw [hst]; rfl
          simp only [update, hq, if_true] at hs
          exact StepOut.noConfusion hs
        all_goals
          simp only [update, stateKey] at hs
          rw [hst] at hs
          simp only [stateKeyAux] at hs
          injection hs with h1 h2
          subst h1; subst h2
          exact Or.inr (Or.inr ⟨hst, rfl⟩)
  | done r =>
      rcases hN with ⟨hst, d, h, ctx, ans, hpend⟩ | ⟨hst, s, hpend⟩ | ⟨hst, hpend⟩
      · subst hpend
        simp only [update] at hs
        cases r <;> simp [allowedEv, allowedRes] at ha <;> simp only [handleMsg] at hs
        · injection hs with h1 h2
          subst h1; subst h2
          exact Or.inr (Or.inr ⟨rfl, rfl⟩)
        · injection hs with h1 h2
          subst h1; subst h2
          exact Or.inr (Or.inl ⟨rfl, _, rfl⟩)
      · subst hpend
        simp only [update] at hs
        cases r <;> simp [allowedEv, allowedRes] at ha <;> simp only [handleMsg] at hs
        · injection hs with h1 h2
          subst h1; subst h2
          exact Or.inr (Or.inr ⟨rfl, rfl⟩)
        · exact StepOut.noConfusion hs
      · subst hpend
        simp [allowedEv] at ha

theorem noq_reachFrom {c0 c : Model × Option Pending} (h0 : NoQuestioningCfg c0)
    (h : ReachFrom c0 c) : NoQuestioningCfg c := by
  induction h with
  | refl => exact h0
  | next hre hall hstep ih => exact noq_preserved ih hall hstep

theorem noq_not_questioning {c : Model × Option Pending} (h : NoQuestioningCfg c) :
    c.1.state ≠ .questioning := by
  rcases h with ⟨hst, -⟩ | ⟨hst, -⟩ | ⟨hst, -⟩ <;> simp [hst]

/-! ### Claim C6: failures route to Error, which is terminal -/

/-- **C6.** In every state, a failure message transitions the session to
`Error` with the failure stored for display; and from a reachable
`Error` configuration, every allowed event other than the terminating
quit keys leaves the session state at `Error`. -/
theorem c6_failure_routing :
    (∀ (m : Model) (p : Option Pending) (e : String),
      update (m, p) (.done (.err e)) =
        .cont ({ m with err := some e, state := .error }) none)
    ∧ (∀ (m : Model) (p : Option Pending), Reach (m, p) → m.state = .error →
        ∀ (ev : Ev) (m2 : Model) (p2 : Option Pending),
          allowedEv (m, p) ev = true → update (m, p) ev = .cont m2 p2 →
          m2.state = .error) := by
  constructor
  · intro m p e
    rfl
  · intro m p hre hst ev m2 p2 ha hs
    have hp : p = none := (reach_inv hre).2.2.2.2 hst
    subst hp
    cases ev with
    | resize w h =>
        simp only [update] at hs
        injection hs with h1 h2
        subst h1
        exact hst
    | tick =>
        simp only [update] at hs
        injection hs with h1 h2
        subst h1
        exact hst
    | done r => simp [allowedEv] at ha
    | key k w =>
        cases k
        case ctrlC =>
          simp only [update] at hs
          exact StepOut.noConfusion hs
        case q =>
          have hq : qQuits m.state = true := by rw [hst]; rfl
          simp only [update, hq, if_true] at hs
          exact StepOut.noConfusion hs
        all_goals
          simp only [update, stateKey] at hs
          rw [hst] at hs
          simp only [stateKeyAux] at hs
          injection hs with h1 h2
          subst h1
          exact hst

theorem reach_mError : Reach (mError, none) :=
  Reach.next (e := .done (.err ("boom"))) Reach.init rfl rfl

/-- Witness for C6: a failure in the initial configuration lands on the
error screen, and an ordinary key pressed there leaves it. -/
theorem c6_failure_routing_witness :
    update (NewModel, some .checkPrereq) (.done (.err ("boom"))) =
      .cont ({ NewModel with err := some ("boom"), state := .error }) none
    ∧ mError.state = .error :=
  ⟨c6_failure_routing.1 NewModel (some .checkPrereq) ("boom"),
   c6_failure_routing.2 mError none reach_mError rfl (.key .other w0) mError none rfl rfl⟩

/-! ### Claim C4: an empty question list skips Questioning -/

/-- **C4.** When question generation completes in a reachable
configuration: an empty question list dispatches message generation
immediately, with the state remaining `Analysis`, and `Questioning` is
never entered in any subsequent reachable configuration; a non-empty
list enters `Questioning` with question index 0 (and an empty answer
map). -/
theorem c4_empty_questions (m : Model) (p : Option Pending) (d h : List Char)
    (hre : Reach (m, p)) (hp : p = some (.analyzeChanges d h)) (qs : List String) :
    (qs = [] →
      update (m, p) (.done (.questionsGenerated qs)) =
        .cont ({ m with questions := qs })
          (some (.generateCommit m.diff m.history m.historyCtx m.answers))
      ∧ m.state = .analysis
      ∧ (∀ c2, ReachFrom ({ m with questions := qs },
            some (.generateCommit m.diff m.history m.historyCtx m.answers)) c2 →
          c2.1.state ≠ .questioning))
    ∧ (qs ≠ [] →
      update (m, p) (.done (.questionsGenerated qs)) =
        .cont ({ m with questions := qs, state := .questioning }) none
      ∧ ({ m with questions := qs, state := .questioning } : Model).currentQIdx = 0
      ∧ ({ m with questions := qs, state := .questioning } : Model).answers = []) := by
  subst hp
  obtain ⟨hA, hstA⟩ := (reach_inv hre).2.2.1 d h rfl
  constructor
  · intro hqs
    subst hqs
    refine ⟨rfl, hstA, ?_⟩
    intro c2 h2
    refine noq_not_questioning (noq_reachFrom ?_ h2)
    exact Or.inl ⟨hstA, m.diff, m.history, m.historyCtx, m.answers, rfl⟩
  · intro hqs
    have hlen : ¬ (qs.length = 0) := by simpa using hqs
    refine ⟨?_, hA.1, hA.2⟩
    simp [update, handleMsg, hlen]

theorem reach_mAnalysis : Reach (mAnalysis, some (.analyzeChanges [('d')] [('h')])) :=
  Reach.next (e := .done (.historyAnalyzed []))
    (Reach.next (e := .key .one w0)
      (Reach.next (e := .done (.prereqOk cfgOll [('d')] [('h')]))
        Reach.init rfl rfl)
      rfl rfl)
    rfl rfl

/-- Witness for C4 at a concrete reachable analyzing configuration, once
with the empty question list and once with one question. -/
theorem c4_empty_questions_witness :
    update (mAnalysis, some (.analyzeChanges [('d')] [('h')])) (.done (.questionsGenerated [])) =
      .cont ({ mAnalysis with questions := [] })
        (some (.generateCommit mAnalysis.diff mAnalysis.history
          mAnalysis.historyCtx mAnalysis.answers))
    ∧ update (mAnalysis, some (.analyzeChanges [('d')] [('h')]))
        (.done (.questionsGenerated [("Why")])) =
      .cont ({ mAnalysis with questions := [("Why")], state := .questioning }) none
    ∧ ({ mAnalysis with questions := [("Why")], state := .questioning } : Model).currentQIdx = 0 :=
  ⟨((c4_empty_questions mAnalysis (some (.analyzeChanges [('d')] [('h')])) [('d')] [('h')]
      reach_mAnalysis rfl []).1 rfl).1,
   ((c4_empty_questions mAnalysis (some (.analyzeChanges [('d')] [('h')])) [('d')] [('h')]
      reach_mAnalysis rfl [("Why")]).2 (by simp)).1,
   ((c4_empty_questions mAnalysis (some (.analyzeChanges [('d')] [('h')])) [('d')] [('h')]
      reach_mAnalysis rfl [("Why")]).2 (by simp)).2.1⟩

/-! ### Claim C2: the answer map during Questioning -/

theorem take_succ_getD (qs : List String) (k : Nat) (hk : k < qs.length) :
    qs.take (k + 1) = qs.take k ++ [qs.getD k ("")] := by
  rw [List.take_succ, List.getElem?_eq_getElem hk]
  simp [List.getD_eq_getElem?_getD, List.getElem?_eq_getElem hk]

theorem getD_not_mem_take (qs : List String) (k : Nat) (hk : k < qs.length)
    (hnd : qs.Nodup) : qs.getD k ("") ∉ qs.take k := by
  have h1 : (qs.take (k + 1)).Nodup := List.Sublist.nodup (List.take_sublist _ _) hnd
  rw [take_succ_getD qs k hk] at h1
  have hd := (List.nodup_append.mp h1).2.2
  intro hmem
  exact hd hmem (by simp)

theorem mapSet_append (ans : List (String × String)) (key v : String)
    (hnot : ∀ kv ∈ ans, kv.1 ≠ key) :
    mapSet ans key v = ans ++ [(key, v)] := by
  have hfalse : ans.any (fun kv => kv.1 = key) = false := by
    simp only [List.any_eq_false, decide_eq_true_eq]
    exact hnot
  simp [mapSet, hfalse]

theorem doKey_text (m : Model) (p : Option Pending) (a : String)
    (hst : m.state = .questioning) :
    doKey (m, p) (.text a) = ({ m with textArea := m.textArea ++ a }, p) := by
  simp [doKey, update, stateKey, stateKeyAux, hst, questioningKey, taUpdate, keyText, outCfg]

theorem doKey_enter_mid (m : Model) (p : Option Pending)
    (hst : m.state = .questioning) (hv : goTrim m.textArea ≠ (""))
    (hlt : m.currentQIdx + 1 < m.questions.length) :
    doKey (m, p) .enter =
      ({ m with
         answers := mapSet m.answers (m.questions.getD m.currentQIdx ("")) (goTrim m.textArea),
         currentQIdx := m.currentQIdx + 1,
         textArea := ("") }, p) := by
  have hng : ¬ (m.currentQIdx + 1 ≥ m.questions.length) := by omega
  simp [doKey, update, stateKey, stateKeyAux, hst, questioningKey, hv, hng, outCfg]

theorem doKey_enter_last (m : Model) (p : Option Pending)
    (hst : m.state = .questioning) (hv : goTrim m.textArea ≠ (""))
    (hge : m.currentQIdx + 1 ≥ m.questions.length) :
    doKey (m, p) .enter =
      ({ m with
         answers := mapSet m.answers (m.questions.getD m.currentQIdx ("")) (goTrim m.textArea),
         currentQIdx := m.currentQIdx + 1,
         textArea := (""),
         state := .loading },
       some (.generateCommit m.diff m.history m.historyCtx
         (mapSet m.answers (m.questions.getD m.currentQIdx ("")) (goTrim m.textArea)))) := by
  simp [doKey, update, stateKey, stateKeyAux, hst, questioningKey, hv, hge, outCfg]

theorem submitAnswer_mid (m : Model) (p : Option Pending) (a : String)
    (hst : m.state = .questioning) (hta : m.textArea = ("")) (hv : goTrim a ≠ (""))
    (hlt : m.currentQIdx + 1 < m.questions.length) :
    submitAnswer (m, p) a =
      ({ m with
         answers := mapSet m.answers (m.questions.getD m.currentQIdx ("")) (goTrim a),
         currentQIdx := m.currentQIdx + 1,
         textArea := ("") }, p) := by
  unfold submitAnswer
  rw [doKey_text m p a hst, hta]
  have he : ((("") ++ a : String)) = a := rfl
  rw [he]
  rw [doKey_enter_mid ({ m with textArea := a }) p hst hv hlt]

theorem submitAnswer_last (m : Model) (p : Option Pending) (a : String)
    (hst : m.state = .questioning) (hta : m.textArea = ("")) (hv : goTrim a ≠ (""))
    (hge : m.currentQIdx + 1 ≥ m.questions.length) :
    submitAnswer (m, p) a =
      ({ m with
         answers := mapSet m.answers (m.questions.getD m.currentQIdx ("")) (goTrim a),
         currentQIdx := m.currentQIdx + 1,
         textArea := (""),
         state := .loading },
       some (.generateCommit m.diff m.history m.historyCtx
         (mapSet m.answers (m.questions.getD m.currentQIdx ("")) (goTrim a)))) := by
  unfold submitAnswer
  rw [doKey_text m p a hst, hta]
  have he : ((("") ++ a : String)) = a := rfl
  rw [he]
  rw [doKey_enter_last ({ m with textArea := a }) p hst hv hge]

theorem runSubmits_go (qs : List String) (hnd : qs.Nodup) :
    ∀ (as : List String) (m : Model) (p : Option Pending) (bs : List String),
      m.state = .questioning → m.questions = qs →
      m.answers = (qs.take m.currentQIdx).zip bs → bs.length = m.currentQIdx →
      m.textArea = ("") → m.currentQIdx + as.length ≤ qs.length →
      (∀ a ∈ as, goTrim a ≠ ("")) →
      ((runSubmits (m, p) as).1.answers =
          (qs.take (m.currentQIdx + as.length)).zip (bs ++ as.map goTrim)
        ∧ (runSubmits (m, p) as).1.currentQIdx = m.currentQIdx + as.length
        ∧ (runSubmits (m, p) as).1.state =
            (if m.currentQIdx + as.length = qs.length ∧ as ≠ [] then .loading
             else .questioning)) := by
  intro as
  induction as with
  | nil =>
      intro m p bs hst hq hans hbs hta hlen hv
      refine ⟨by simpa [runSubmits] using hans, by simp [runSubmits],
        by simpa [runSubmits] using hst⟩
  | cons a as' ih =>
      intro m p bs hst hq hans hbs hta hlen hv
      subst hq
      have hlen' : m.currentQIdx + as'.length + 1 ≤ m.questions.length := by
        simp only [List.length_cons] at hlen
        omega
      have hklt : m.currentQIdx < m.questions.length := by omega
      have hva : goTrim a ≠ ("") := hv a (by simp)
      have hnot : ∀ kv ∈ m.answers, kv.1 ≠ m.questions.getD m.currentQIdx ("") := by
        intro kv hkv heq
        rw [hans] at hkv
        have hmem := (List.of_mem_zip hkv).1
        rw [heq] at hmem
        exact getD_not_mem_take m.questions m.currentQIdx hklt hnd hmem
      have hltake : (m.questions.take m.currentQIdx).length = bs.length := by
        rw [List.length_take, hbs]
        omega
      have hmapset : mapSet m.answers (m.questions.getD m.currentQIdx ("")) (goTrim a) =
          (m.questions.take (m.currentQIdx + 1)).zip (bs ++ [goTrim a]) := by
        rw [mapSet_append _ _ _ hnot, hans, take_succ_getD m.questions _ hklt,
          List.zip_append hltake]
        rfl
      rcases Nat.lt_or_ge (m.currentQIdx + 1) m.questions.length with hlt | hge
      · rw [show runSubmits (m, p) (a :: as') = runSubmits (submitAnswer (m, p) a) as' from rfl,
          submitAnswer_mid m p a hst hta hva hlt]
        have ihres := ih ({ m with
            answers := mapSet m.answers (m.questions.getD m.currentQIdx ("")) (goTrim a),
            currentQIdx := m.currentQIdx + 1,
            textArea := ("") }) p (bs ++ [goTrim a])
          hst rfl hmapset (by simp [hbs]) rfl
          (by show m.currentQIdx + 1 + as'.length ≤ m.questions.length; omega)
          (fun a' ha' => hv a' (List.mem_cons_of_mem _ ha'))
        obtain ⟨ih1, ih2, ih3⟩ := ihres
        have e1 : m.currentQIdx + 1 + as'.length = m.currentQIdx + (a :: as').length := by
          simp only [List.length_cons]
          omega
        refine ⟨?_, ?_, ?_⟩
        · rw [ih1]
          show (m.questions.take (m.currentQIdx + 1 + as'.length)).zip
              ((bs ++ [goTrim a]) ++ as'.map goTrim) = _
          rw [e1]
          simp
        · rw [ih2]
          show m.currentQIdx + 1 + as'.length = m.currentQIdx + (a :: as').length
          exact e1
        · rw [ih3]
          show (if m.currentQIdx + 1 + as'.length = m.questions.length ∧ as' ≠ [] then
              SessionState.loading else .questioning) = _
          by_cases hcase : as' = []
          · subst hcase
            rw [if_neg (by simp), if_neg ?_]
            rintro ⟨h1, -⟩
            simp only [List.length_cons, List.length_nil] at h1
            omega
          · rw [e1]
            simp [hcase]
      · have has' : as' = [] := by
          have : as'.length = 0 := by omega
          exact List.length_eq_zero.mp this
        subst has'
        rw [show runSubmits (m, p) [a] = submitAnswer (m, p) a from rfl,
          submitAnswer_last m p a hst hta hva hge]
        have heq : m.currentQIdx + 1 = m.questions.length := by
          simp only [List.length_cons] at hlen
          omega
        refine ⟨?_, ?_, ?_⟩
        · show mapSet m.answers (m.questions.getD m.currentQIdx ("")) (goTrim a) =
            (m.questions.take (m.currentQIdx + [a].length)).zip (bs ++ [a].map goTrim)
          rw [hmapset]
          simp
        · show m.currentQIdx + 1 = m.currentQIdx + [a].length
          simp
        · show SessionState.loading = _
          rw [if_pos ?_]
          constructor
          · simp only [List.length_cons, List.length_nil]
            omega
          · simp

/-- **C2 (amended).** Starting from entry into `Questioning` (empty
answer map, question index 0) with pairwise-distinct generated
questions, after submitting `i` valid answers the answer map is exactly
the first `i` questions zipped with the trimmed submitted texts: it has
exactly `i` entries, its keys are the first `i` questions in order, the
question index is `i`, and the state leaves `Questioning` exactly on the
last question. -/
theorem c2_answer_map (m0 : Model) (p : Option Pending) (qs as : List String)
    (hst : m0.state = .questioning) (hq : m0.questions = qs) (hans : m0.answers = [])
    (hidx : m0.currentQIdx = 0) (hta : m0.textArea = ("")) (hnd : qs.Nodup)
    (hpos : 0 < qs.length) (hlen : as.length ≤ qs.length)
    (hv : ∀ a ∈ as, goTrim a ≠ ("")) :
    (runSubmits (m0, p) as).1.answers = (qs.take as.length).zip (as.map goTrim)
    ∧ (runSubmits (m0, p) as).1.answers.length = as.length
    ∧ (runSubmits (m0, p) as).1.answers.map Prod.fst = qs.take as.length
    ∧ (runSubmits (m0, p) as).1.currentQIdx = as.length
    ∧ (runSubmits (m0, p) as).1.state =
        (if as.length = qs.length then SessionState.loading else .questioning) := by
  have h := runSubmits_go qs hnd as m0 p [] hst hq (by simp [hans, hidx])
    (by simp [hidx]) hta (by rw [hidx]; omega) hv
  rw [hidx] at h
  simp only [Nat.zero_add, List.nil_append] at h
  obtain ⟨h1, h2, h3⟩ := h
  have hlt : (qs.take as.length).length = as.length := by
    rw [List.length_take]
    omega
  refine ⟨h1, ?_, ?_, h2, ?_⟩
  · rw [h1, List.length_zip, hlt, List.length_map]
    omega
  · rw [h1]
    apply List.map_fst_zip
    rw [hlt, List.length_map]
  · rw [h3]
    by_cases hcase : as = []
    · subst hcase
      rw [if_neg (by simp), if_neg ?_]
      simp only [List.length_nil]
      omega
    · simp [hcase]

/-- Witness for C2: two distinct questions, one valid submission. -/
theorem c2_answer_map_witness :
    (runSubmits (mQW, none) [("alpha")]).1.answers = [(("Q1"), ("alpha"))]
    ∧ (runSubmits (mQW, none) [("alpha")]).1.currentQIdx = 1
    ∧ (runSubmits (mQW, none) [("alpha")]).1.state = .questioning := by
  have h := c2_answer_map mQW none [("Q1"), ("Q2")] [("alpha")] rfl rfl rfl rfl rfl
    (by decide) (by decide) (by decide) (by decide)
  obtain ⟨h1, -, -, h4, h5⟩ := h
  refine ⟨?_, h4, ?_⟩
  · rw [h1]
    decide
  · rw [h5]
    decide

/-- **C2, counterexample.** With the duplicated question list
`["A", "A"]` and the two valid submissions `"x"`, `"y"`, the answer map
after the second submission has one entry, not two: the second
submission overwrites the first answer. -/
theorem c2_counterexample :
    mQDup.questions = [("A"), ("A")]
    ∧ (runSubmits (mQDup, none) [("x"), ("y")]).1.answers = [(("A"), ("y"))]
    ∧ ¬ ((runSubmits (mQDup, none) [("x"), ("y")]).1.answers.length = 2) := by
  refine ⟨rfl, by decide, by decide⟩

end SmartCommit
